import Mathlib

/-!
Verification of the image-recognition-processing workflow.

The repository declares (in `image_recognition_processing/state_machine.py`)
a Step Functions state machine: an extract-metadata task with a two-policy
retry list and a catch rule, a Choice state on the extracted image format,
a two-branch Parallel state (detect labels / generate thumbnails) and a
store-metadata task, with a single Fail state as the unsupported-format
sink.  The orchestration engine that executes such a definition (retry
policy evaluation, input/result-path scoping, choice routing, parallel
fork/join, history replay) is not part of the repository sources; its
behaviour is modelled here from the specification (spec.md §3–§4.6).
The concrete workflow data below is translated directly from
`state_machine.py`.
-/

/-- JSON-like execution document (spec §3 "document": a JSON-like tree). -/
inductive Json where
  | null
  | str (s : String)
  | num (n : Int)
  | arr (xs : List Json)
  | obj (fields : List (String × Json))

/-- Field lookup on an object document. -/
def Json.field? (d : Json) (k : String) : Option Json :=
  match d with
  | .obj fs => fs.lookup k
  | _ => none

/-- Replace (or append) the binding of key `k` in an association list,
keeping every other binding in place. -/
def setField (fs : List (String × Json)) (k : String) (v : Json) :
    List (String × Json) :=
  match fs with
  | [] => [(k, v)]
  | (k', v') :: rest =>
    if k' = k then (k, v) :: rest else (k', v') :: setField rest k v

/-- Modelled from the spec: JSONPath-lite selection (spec §2, §4.1
"compute task input via inputPath selection (default: entire document)").
A path is the chain of object fields below the root; `[]` is `$`. -/
def getPath : List String → Json → Option Json
  | [], d => some d
  | k :: ks, .obj fs =>
    match fs.lookup k with
    | some v => getPath ks v
    | none => none
  | _ :: _, _ => none

/-- Modelled from the spec: JSONPath-lite result merge (spec §4.1 "merge the
result into the document at resultPath (default: overwrite entire
document)").  Writing at `[]` overwrites the whole document; writing at
a deeper path leaves all sibling fields unchanged. -/
def setPath : List String → Json → Json → Json
  | [], _, v => v
  | k :: ks, .obj fs, v =>
    .obj (setField fs k (setPath ks ((fs.lookup k).getD (.obj [])) v))
  | k :: ks, _, v => .obj [(k, setPath ks (.obj []) v)]

/-- The states declared in `state_machine.py` (CDK construct ids). -/
inductive StateName where
  | extractImageMetadata
  | checkImageType
  | transformMetadata
  | parallelProcessing
  | detectLabels
  | generateThumbnails
  | storeMetadata
  | unsupportedImageType
deriving DecidableEq, Repr

/-- Retry policy record (spec §3 RetryPolicy); one per `add_retry` call. -/
structure RetryPolicy where
  errors : List String
  maxAttempts : Nat
  intervalSeconds : Nat
  backoffRate : ℚ

/-- A policy matches a raised error class when its error set contains the
class or the wildcard `States.ALL`. -/
def RetryPolicy.matchesError (p : RetryPolicy) (e : String) : Bool :=
  p.errors.contains e || p.errors.contains "States.ALL"

/-- Outcome of one retry-policy consultation (spec §4.2 contract). -/
inductive RetryDecision where
  | retryAfter (delaySeconds : ℚ)
  | exhausted
deriving DecidableEq, Repr

/-- Modelled from the spec: the Retry Policy Engine contract
`decide(errorClass, attemptCount, policies)` of spec §4.2: only the first
policy in declaration order whose error-class set matches is consulted;
delay is `initialIntervalSeconds * backoffRate^(attemptCount-1)`; if the
attempt count exceeds that policy's `maxAttempts` it reports exhausted. -/
def retryDecide (errorClass : String) (attemptCount : Nat)
    (policies : List RetryPolicy) : RetryDecision :=
  match policies.find? (fun p => p.matchesError errorClass) with
  | none => .exhausted
  | some p =>
    if p.maxAttempts < attemptCount then .exhausted
    else .retryAfter ((p.intervalSeconds : ℚ) * p.backoffRate ^ (attemptCount - 1))

/-- Largest `maxAttempts` over a policy list; bounds the retry loop. -/
def maxAttemptsBound (ps : List RetryPolicy) : Nat :=
  ps.foldr (fun p acc => max p.maxAttempts acc) 0

/-- Modelled from the spec: the sequence of backoff delays granted to a task
whose attempts keep failing with error class `e` (spec §4.2, §7: retries are
consulted per attempt, starting at attempt 1, until the governing policy
reports exhausted).  Because task executors are idempotent and retries
resend the identical input (spec §6), every attempt fails alike, so the
schedule is determined by the policy list alone. -/
def retrySchedule (e : String) (ps : List RetryPolicy) : Nat → Nat → List ℚ
  | 0, _ => []
  | fuel + 1, attempt =>
    match retryDecide e attempt ps with
    | .exhausted => []
    | .retryAfter d => d :: retrySchedule e ps fuel (attempt + 1)

/-- Catch rule record (spec §3 CatchRule); one per `add_catch` call. -/
structure CatchRule where
  errors : List String
  handler : StateName

/-- A catch rule matches like a retry policy does. -/
def CatchRule.matchesError (c : CatchRule) (e : String) : Bool :=
  c.errors.contains e || c.errors.contains "States.ALL"

/-- Modelled from the spec: catch rules are applied only after all matching
retries are exhausted, in declaration order (spec §3, §7). -/
def applyCatch (e : String) (cs : List CatchRule) : Option StateName :=
  match cs.find? (fun c => c.matchesError e) with
  | some c => some c.handler
  | none => none

/-- Choice predicates: string equality over a document path, composable
with OR/AND (`sfn.Condition.string_equals`, `sfn.Condition.or_`). -/
inductive Cond where
  | stringEquals (path : List String) (value : String)
  | orC (a b : Cond)
  | andC (a b : Cond)

/-- Modelled from the spec: predicate evaluation over the execution
document (spec §4.4). -/
def evalCond : Cond → Json → Bool
  | .stringEquals p v, d =>
    match getPath p d with
    | some (.str s) => s == v
    | _ => false
  | .orC a b, d => evalCond a d || evalCond b d
  | .andC a b, d => evalCond a d && evalCond b d

/-- Modelled from the spec: the Choice Router (spec §4.4): evaluate the
predicates in declaration order, short-circuit on the first satisfied
branch, otherwise take the mandatory default branch. -/
def route (branches : List (Cond × StateName)) (otherwise : StateName)
    (d : Json) : StateName :=
  match branches.find? (fun br => evalCond br.1 d) with
  | some br => br.2
  | none => otherwise

/-- Task state configuration (spec §3 State.Task): input/result paths
(each `[]` is the CDK default `$`), declaration-ordered retry policies and
catch rules, and the successor state. -/
structure TaskState where
  inputPath : List String
  resultPath : List String
  retriers : List RetryPolicy
  catchers : List CatchRule
  next : Option StateName

/-- State variants of the data model (spec §3). -/
inductive StepState where
  | task (t : TaskState)
  | choice (branches : List (Cond × StateName)) (otherwise : StateName)
  | parallel (branch1 branch2 : StateName) (resultPath : List String)
      (next : Option StateName)
  | fail (error cause : Option String)
  | succeed

/-- `add_retry(errors=['States.ALL'], interval=seconds(1), max_attempts=2,
backoff_rate=1.5)` — attached to every task (`state_machine.py` lines
124-129, 136-141, 146-151, 156-161, 168-173). -/
def wildcard_retry : RetryPolicy :=
  { errors := ["States.ALL"], maxAttempts := 2, intervalSeconds := 1,
    backoffRate := 3 / 2 }

/-- `add_retry(errors=['ImageIdentifyError'], max_attempts=0)` —
`state_machine.py` lines 121-123; interval and backoff rate are the CDK
defaults (1 second, 2). -/
def image_identify_error_retry : RetryPolicy :=
  { errors := ["ImageIdentifyError"], maxAttempts := 0, intervalSeconds := 1,
    backoffRate := 2 }

/-- `extract_metadata_task` (`state_machine.py` lines 112-129):
`input_path='$'`, `result_path='$.extractedMetadata'`, a catch rule routing
`ImageIdentifyError` to the Fail state, and the two retry policies in
declaration order. -/
def extract_metadata_task : TaskState :=
  { inputPath := [], resultPath := ["extractedMetadata"],
    retriers := [image_identify_error_retry, wildcard_retry],
    catchers := [⟨["ImageIdentifyError"], .unsupportedImageType⟩],
    next := some .checkImageType }

/-- `transform_metadata_task` (`state_machine.py` lines 131-141):
`input_path='$.extractedMetadata'`, `result_path='$.extractedMetadata'`. -/
def transform_metadata_task : TaskState :=
  { inputPath := ["extractedMetadata"], resultPath := ["extractedMetadata"],
    retriers := [wildcard_retry], catchers := [],
    next := some .parallelProcessing }

/-- `detect_labels_task` (`state_machine.py` lines 143-151): no
input/result path given, so both default to `$`; ends its branch. -/
def detect_labels_task : TaskState :=
  { inputPath := [], resultPath := [],
    retriers := [wildcard_retry], catchers := [], next := none }

/-- `generate_thumbnails_task` (`state_machine.py` lines 153-161): no
input/result path given, so both default to `$`; ends its branch. -/
def generate_thumbnails_task : TaskState :=
  { inputPath := [], resultPath := [],
    retriers := [wildcard_retry], catchers := [], next := none }

/-- `store_metadata_task` (`state_machine.py` lines 163-173):
`input_path='$'`, `result_path='$.storeResult'`; final state of the
supported-format chain. -/
def store_metadata_task : TaskState :=
  { inputPath := [], resultPath := ["storeResult"],
    retriers := [wildcard_retry], catchers := [], next := none }

/-- The `Check image type` choice condition (`state_machine.py` lines
188-194): `$.extractedMetadata.format` equals "JPEG" or equals "PNG". -/
def jpegOrPng : Cond :=
  .orC (.stringEquals ["extractedMetadata", "format"] "JPEG")
       (.stringEquals ["extractedMetadata", "format"] "PNG")

/-- The single when-branch list of the Choice state. -/
def imageTypeBranches : List (Cond × StateName) :=
  [(jpegOrPng, .transformMetadata)]

/-- The workflow graph of `state_machine.py` lines 108-199: each state name
mapped to its configuration.  The Fail state (lines 108-110) is declared
with neither an `error` nor a `cause` argument; the Parallel state (lines
175-181) has branches `[detect_labels_task, generate_thumbnails_task]`,
`result_path='$.parallelResults'`, and is chained into the store task. -/
def stateOf : StateName → StepState
  | .extractImageMetadata => .task extract_metadata_task
  | .checkImageType => .choice imageTypeBranches .unsupportedImageType
  | .transformMetadata => .task transform_metadata_task
  | .parallelProcessing =>
    .parallel .detectLabels .generateThumbnails ["parallelResults"]
      (some .storeMetadata)
  | .detectLabels => .task detect_labels_task
  | .generateThumbnails => .task generate_thumbnails_task
  | .storeMetadata => .task store_metadata_task
  | .unsupportedImageType => .fail none none

/-- All declared state names. -/
def allStates : List StateName :=
  [.extractImageMetadata, .checkImageType, .transformMetadata,
   .parallelProcessing, .detectLabels, .generateThumbnails,
   .storeMetadata, .unsupportedImageType]

/-- Whether a state variant is a Fail state. -/
def isFailState : StepState → Bool
  | .fail _ _ => true
  | _ => false

/-- Execution status (spec §3; TIMED_OUT is subsumed: a task timeout is
treated identically to a raised error, spec §5). -/
inductive ExecStatus where
  | running
  | succeeded (output : Json)
  | failed (error cause : Option String)

/-- History events (spec §3 ExecutionEvent: state entered, task
succeeded/failed, retry scheduled, branch joined, terminal transitions;
cancellation signals of spec §4.3 are recorded as events as well). -/
inductive Event where
  | entered (s : StateName)
  | taskSucceeded (s : StateName) (result : Json)
  | taskFailed (s : StateName) (errorClass : String)
  | retryScheduled (s : StateName) (delaySeconds : ℚ)
  | cancelSignalled (s : StateName)
  | branchJoined (s : StateName)
  | executionSucceeded (output : Json)
  | executionFailed (error cause : Option String)

/-- An event that terminates the execution. -/
def isTerminalEvent : Event → Bool
  | .executionSucceeded _ => true
  | .executionFailed _ _ => true
  | _ => false

/-- External task executors (spec §6 task invocation contract): a pure
function from task state and input document to a result or a typed error;
purity reflects the required idempotence (retries resend the identical
input and observe the identical outcome). -/
def Oracle : Type := StateName → Json → Except String Json

/-- Modelled from the spec: one Task state activation (spec §4.1): select
the input via `inputPath`, invoke the executor, and on success merge the
result at `resultPath`; on failure run the retry schedule of §4.2 until
exhausted (attempts of an idempotent executor fail alike) and surface the
error.  A failing input-path selection is a runtime error that is neither
retried nor caught. -/
def taskStep (o : Oracle) (s : StateName) (t : TaskState) (doc : Json) :
    List Event × Except String Json :=
  match getPath t.inputPath doc with
  | none => ([Event.taskFailed s "States.Runtime"], .error "States.Runtime")
  | some input =>
    match o s input with
    | .ok r => ([Event.taskSucceeded s r], .ok (setPath t.resultPath doc r))
    | .error e =>
      let ds := retrySchedule e t.retriers (maxAttemptsBound t.retriers + 1) 1
      (Event.taskFailed s e :: ds.map (Event.retryScheduled s), .error e)

/-- Modelled from the spec: the Execution Engine transition loop
(spec §4.1) over the workflow graph `stateOf`, fuelled to make the
recursion manifestly total.  Task failure routes through retry (inside
`taskStep`), then the catch rules, else fails the execution; Choice defers
to `route`; Parallel forks the document to both branches (spec §4.3),
joins fail-fast with a best-effort cancellation signal to the sibling, and
on double success writes the declaration-ordered branch outputs at its
result path.  Branch sub-histories are recorded with their sub-execution
terminal markers stripped; the join outcome is the coordinator's own. -/
def run (o : Oracle) : Nat → StateName → Json → List Event × ExecStatus
  | 0, _, _ => ([], .running)
  | fuel + 1, s, doc =>
    match stateOf s with
    | .task t =>
      match taskStep o s t doc with
      | (evs, .ok doc') =>
        match t.next with
        | none =>
          (Event.entered s :: evs ++ [Event.executionSucceeded doc'],
           .succeeded doc')
        | some n =>
          let r := run o fuel n doc'
          (Event.entered s :: evs ++ r.1, r.2)
      | (evs, .error e) =>
        match applyCatch e t.catchers with
        | some h =>
          let r := run o fuel h doc
          (Event.entered s :: evs ++ r.1, r.2)
        | none =>
          (Event.entered s :: evs ++ [Event.executionFailed (some e) none],
           .failed (some e) none)
    | .choice bs dflt =>
      let r := run o fuel (route bs dflt doc) doc
      (Event.entered s :: r.1, r.2)
    | .parallel b1 b2 rp nxt =>
      let r1 := run o fuel b1 doc
      let r2 := run o fuel b2 doc
      let bevs := r1.1.filter (fun e => !isTerminalEvent e) ++
        r2.1.filter (fun e => !isTerminalEvent e)
      match r1.2 with
      | .failed e c =>
        (Event.entered s :: bevs ++
          [Event.cancelSignalled b2, Event.executionFailed e c], .failed e c)
      | .succeeded out1 =>
        match r2.2 with
        | .failed e c =>
          (Event.entered s :: bevs ++
            [Event.cancelSignalled b1, Event.executionFailed e c],
           .failed e c)
        | .succeeded out2 =>
          let doc' := setPath rp doc (.arr [out1, out2])
          match nxt with
          | none =>
            (Event.entered s :: bevs ++
              [Event.branchJoined s, Event.executionSucceeded doc'],
             .succeeded doc')
          | some n =>
            let r := run o fuel n doc'
            (Event.entered s :: bevs ++ Event.branchJoined s :: r.1, r.2)
        | .running => (Event.entered s :: bevs, .running)
      | .running =>
        match r2.2 with
        | .failed e c =>
          (Event.entered s :: bevs ++
            [Event.cancelSignalled b1, Event.executionFailed e c],
           .failed e c)
        | _ => (Event.entered s :: bevs, .running)
    | .fail err cause =>
      (Event.entered s :: [Event.executionFailed err cause],
       .failed err cause)
    | .succeed =>
      (Event.entered s :: [Event.executionSucceeded doc], .succeeded doc)

/-- The states entered during a run, in order (branch entries included). -/
def visited (evs : List Event) : List StateName :=
  evs.filterMap (fun e => match e with | .entered s => some s | _ => none)

/-- The backoff delays of the retries recorded in a history. -/
def delaysRecorded (evs : List Event) : List ℚ :=
  evs.filterMap
    (fun e => match e with | .retryScheduled _ d => some d | _ => none)

/-- The number of retry attempts recorded in a history. -/
def retriesRecorded (evs : List Event) : Nat :=
  (delaysRecorded evs).length

/-- Modelled from the spec: one step of status replay (spec §4.5: status
must be derivable purely by replaying history). -/
def stepEvent (st : ExecStatus) : Event → ExecStatus
  | .executionSucceeded out => .succeeded out
  | .executionFailed e c => .failed e c
  | _ => st

/-- Replay a history from a given status. -/
def replayFrom (st : ExecStatus) (evs : List Event) : ExecStatus :=
  evs.foldl stepEvent st

/-- Modelled from the spec: the Status API derivation (spec §4.5
`getStatus`): replay the append-only history from scratch. -/
def replay (evs : List Event) : ExecStatus :=
  replayFrom .running evs

/-- A sample initial document built by the trigger (spec §4.6:
`{objectKey, metadata}`). -/
def sampleDoc : Json :=
  .obj [("objectKey", .str "photo.jpg")]

/-- Task executors that all succeed, the extract task classifying the
image as a JPEG. -/
def okOracle : Oracle := fun s _ =>
  Except.ok
    (match s with
     | .extractImageMetadata =>
       Json.obj [("format", .str "JPEG"), ("size", .num 1024)]
     | .transformMetadata =>
       Json.obj [("format", .str "JPEG"), ("normalized", .str "yes")]
     | .detectLabels => Json.arr [.str "Dog"]
     | .generateThumbnails => Json.obj [("thumbnail", .str "thumb.jpg")]
     | .storeMetadata => Json.str "stored"
     | _ => Json.null)

/-- Task executors where the extract task classifies the image as a BMP. -/
def bmpOracle : Oracle := fun _ _ =>
  Except.ok (Json.obj [("format", .str "BMP")])

/-- Task executors where every invocation raises the business error
`ImageIdentifyError`. -/
def iieOracle : Oracle := fun _ _ =>
  Except.error "ImageIdentifyError"

/-- Task executors where every invocation raises a transient error. -/
def transientOracle : Oracle := fun _ _ =>
  Except.error "Lambda.ServiceException"

/-- A document as it stands when the transform task is entered. -/
def transformInputDoc : Json :=
  .obj [("objectKey", .str "photo.jpg"),
        ("extractedMetadata", .obj [("format", .str "JPEG")])]

/-- The output document of the successful JPEG run of `okOracle`. -/
def sampleFinalDoc : Json :=
  .obj [("objectKey", .str "photo.jpg"),
        ("extractedMetadata",
          .obj [("format", .str "JPEG"), ("normalized", .str "yes")]),
        ("parallelResults",
          .arr [.arr [.str "Dog"],
                .obj [("thumbnail", .str "thumb.jpg")]]),
        ("storeResult", .str "stored")]

example :
    visited (run okOracle 10 .extractImageMetadata sampleDoc).1 =
      [.extractImageMetadata, .checkImageType, .transformMetadata,
       .parallelProcessing, .detectLabels, .generateThumbnails,
       .storeMetadata] := by decide

example :
    (run okOracle 10 .extractImageMetadata sampleDoc).2 =
      .succeeded sampleFinalDoc := by rfl

example :
    visited (run bmpOracle 10 .extractImageMetadata sampleDoc).1 =
      [.extractImageMetadata, .checkImageType, .unsupportedImageType] := by
  decide

example :
    (run bmpOracle 10 .extractImageMetadata sampleDoc).2 =
      .failed none none := by rfl

example : retriesRecorded (run bmpOracle 10 .extractImageMetadata sampleDoc).1 = 0 := by rfl

example :
    visited (run iieOracle 10 .extractImageMetadata sampleDoc).1 =
      [.extractImageMetadata, .unsupportedImageType] := by decide

example : retriesRecorded (run iieOracle 10 .extractImageMetadata sampleDoc).1 = 0 := by rfl

example :
    delaysRecorded (run transientOracle 10 .transformMetadata transformInputDoc).1 =
      [1, 3 / 2] := by
  have h : delaysRecorded
      (run transientOracle 10 .transformMetadata transformInputDoc).1 =
      [((1 : Nat) : ℚ) * (3 / 2 : ℚ) ^ (1 - 1 : Nat),
       ((1 : Nat) : ℚ) * (3 / 2 : ℚ) ^ (2 - 1 : Nat)] := rfl
  rw [h]
  norm_num

example :
    (run transientOracle 10 .transformMetadata transformInputDoc).2 =
      .failed (some "Lambda.ServiceException") none := by rfl

/-- Modelled from the spec: the Trigger Adapter's persistent view
(spec §4.6, §8.6): the metadata store keyed by the uploaded object key —
the `start-execution` handler's code ships as a lambda asset referenced by
`state_machine.py` lines 201-223 and is not among the sources.  One
execution record and one metadata-store write per deduped key. -/
structure TriggerState where
  executions : List (String × Nat)
  metadataWrites : List String
  nextExecutionId : Nat

/-- Modelled from the spec: `onUploadNotification(objectKey, metadata) →
executionId` (spec §4.6): the object key is the idempotency key; a
duplicate notification for a key already recorded within the dedupe
window starts no second execution and repeats no downstream side
effects. -/
def onUploadNotification (st : TriggerState) (objectKey : String) :
    TriggerState × Nat :=
  match st.executions.lookup objectKey with
  | some id => (st, id)
  | none =>
    ({ executions := (objectKey, st.nextExecutionId) :: st.executions,
       metadataWrites := objectKey :: st.metadataWrites,
       nextExecutionId := st.nextExecutionId + 1 },
     st.nextExecutionId)

/-- `1 ≤ n` as needed to talk about attempt counts (attempts start at 1). -/
theorem retryDecide_extract_iie (n : Nat) (hn : 1 ≤ n) :
    retryDecide "ImageIdentifyError" n extract_metadata_task.retriers =
      .exhausted := by
  have hfind : extract_metadata_task.retriers.find?
      (fun p => p.matchesError "ImageIdentifyError") =
      some image_identify_error_retry := rfl
  simp only [retryDecide, hfind]
  rw [if_pos (show image_identify_error_retry.maxAttempts < n by
    simp only [image_identify_error_retry]; omega)]

/-- C1: the extract task's retry list declares the `ImageIdentifyError`
policy with `maxAttempts = 0` before the `States.ALL` wildcard policy, so
for a raised `ImageIdentifyError` only that first matching policy is
consulted and it reports exhausted at every attempt count ≥ 1; the error
is therefore never retried and routes straight to the task's catch rule,
whose handler is the Fail state.  Concretely, an executor raising
`ImageIdentifyError` produces a run with zero recorded retries that goes
directly from the extract task to the Fail state. -/
theorem claim1_zero_max_attempts_governs :
    (∀ n : Nat, 1 ≤ n →
      retryDecide "ImageIdentifyError" n extract_metadata_task.retriers =
        .exhausted)
    ∧ extract_metadata_task.retriers.find?
        (fun p => p.matchesError "ImageIdentifyError") =
        some image_identify_error_retry
    ∧ image_identify_error_retry.maxAttempts = 0
    ∧ applyCatch "ImageIdentifyError" extract_metadata_task.catchers =
        some .unsupportedImageType
    ∧ retriesRecorded (run iieOracle 10 .extractImageMetadata sampleDoc).1 = 0
    ∧ visited (run iieOracle 10 .extractImageMetadata sampleDoc).1 =
        [.extractImageMetadata, .unsupportedImageType] := by
  exact ⟨retryDecide_extract_iie, rfl, rfl, rfl, rfl, by decide⟩

/-- Witness for C1 at attempt count 1. -/
theorem claim1_witness :
    1 ≤ 1 ∧
      retryDecide "ImageIdentifyError" 1 extract_metadata_task.retriers =
        .exhausted :=
  ⟨Nat.le_refl 1, claim1_zero_max_attempts_governs.1 1 (Nat.le_refl 1)⟩

/-- The wildcard policy matches every raised error class. -/
theorem wildcard_matches (e : String) :
    wildcard_retry.matchesError e = true := by
  simp [RetryPolicy.matchesError, wildcard_retry]

/-- Retry decision against a policy list headed by the wildcard policy:
attempts 1 and 2 are granted `1 * 1.5^(n-1)` seconds of backoff, attempt
3 and beyond report exhausted. -/
theorem retryDecide_wildcard (e : String) (n : Nat) (hn : 1 ≤ n) :
    retryDecide e n [wildcard_retry] =
      (if n ≤ 2 then
        RetryDecision.retryAfter ((1 : ℚ) * (3 / 2 : ℚ) ^ (n - 1))
      else .exhausted) := by
  have hfind : [wildcard_retry].find? (fun p => p.matchesError e) =
      some wildcard_retry :=
    List.find?_cons_of_pos _ (wildcard_matches e)
  simp only [retryDecide, hfind]
  by_cases h2 : n ≤ 2
  · rw [if_neg (show ¬ wildcard_retry.maxAttempts < n by
      simp only [wildcard_retry]; omega), if_pos h2]
    norm_num [wildcard_retry]
  · rw [if_pos (show wildcard_retry.maxAttempts < n by
      simp only [wildcard_retry]; omega), if_neg h2]

/-- C4: every task carries the `States.ALL` retry policy
(`initialInterval` 1s, `backoffRate` 1.5, `maxAttempts` 2); an error it
governs is granted backoff `1 * 1.5^(n-1)` seconds before the n-th retry
for n ∈ {1,2}, and reports exhausted from attempt 3 on (so exactly 2
retries happen).  For the extract task the wildcard governs every error
other than `ImageIdentifyError`.  A transform task whose executor keeps
raising a transient error records exactly the delays [1, 1.5] and, with
no catch rule, fails the execution with that error. -/
theorem claim4_wildcard_backoff :
    (∀ (e : String) (n : Nat), 1 ≤ n →
      retryDecide e n transform_metadata_task.retriers =
        (if n ≤ 2 then
          RetryDecision.retryAfter ((1 : ℚ) * (3 / 2 : ℚ) ^ (n - 1))
        else .exhausted))
    ∧ transform_metadata_task.retriers = [wildcard_retry]
    ∧ detect_labels_task.retriers = [wildcard_retry]
    ∧ generate_thumbnails_task.retriers = [wildcard_retry]
    ∧ store_metadata_task.retriers = [wildcard_retry]
    ∧ extract_metadata_task.retriers =
        [image_identify_error_retry, wildcard_retry]
    ∧ (∀ (e : String) (n : Nat), e ≠ "ImageIdentifyError" → 1 ≤ n →
      retryDecide e n extract_metadata_task.retriers =
        (if n ≤ 2 then
          RetryDecision.retryAfter ((1 : ℚ) * (3 / 2 : ℚ) ^ (n - 1))
        else .exhausted))
    ∧ delaysRecorded
        (run transientOracle 10 .transformMetadata transformInputDoc).1 =
        [1, 3 / 2]
    ∧ (run transientOracle 10 .transformMetadata transformInputDoc).2 =
        .failed (some "Lambda.ServiceException") none := by
  refine ⟨fun e n hn => retryDecide_wildcard e n hn, rfl, rfl, rfl, rfl, rfl,
    ?_, ?_, rfl⟩
  · intro e n hne hn
    have hskip : image_identify_error_retry.matchesError e = false := by
      simp [RetryPolicy.matchesError, image_identify_error_retry,
        beq_iff_eq]
      exact fun h => absurd h hne
    have hfind : extract_metadata_task.retriers.find?
        (fun p => p.matchesError e) = some wildcard_retry := by
      show [image_identify_error_retry, wildcard_retry].find?
        (fun p => p.matchesError e) = some wildcard_retry
      rw [List.find?_cons_of_neg _ (by simp [hskip])]
      exact List.find?_cons_of_pos _ (wildcard_matches e)
    rw [show extract_metadata_task.retriers = [image_identify_error_retry,
      wildcard_retry] from rfl] at hfind ⊢
    simp only [retryDecide, hfind]
    by_cases h2 : n ≤ 2
    · rw [if_neg (show ¬ wildcard_retry.maxAttempts < n by
        simp only [wildcard_retry]; omega), if_pos h2]
      norm_num [wildcard_retry]
    · rw [if_pos (show wildcard_retry.maxAttempts < n by
        simp only [wildcard_retry]; omega), if_neg h2]
  · have h : delaysRecorded
        (run transientOracle 10 .transformMetadata transformInputDoc).1 =
        [((1 : Nat) : ℚ) * (3 / 2 : ℚ) ^ (1 - 1 : Nat),
         ((1 : Nat) : ℚ) * (3 / 2 : ℚ) ^ (2 - 1 : Nat)] := rfl
    rw [h]
    norm_num

/-- Witness for C4 at attempt count 1 with a transient error class. -/
theorem claim4_witness :
    1 ≤ 1 ∧
      retryDecide "Lambda.ServiceException" 1
        transform_metadata_task.retriers =
        (if 1 ≤ 2 then
          RetryDecision.retryAfter ((1 : ℚ) * (3 / 2 : ℚ) ^ (1 - 1 : Nat))
        else .exhausted) :=
  ⟨Nat.le_refl 1,
   claim4_wildcard_backoff.1 "Lambda.ServiceException" 1 (Nat.le_refl 1)⟩

/-- C5 counterexample: the claim asserts every Fail state carries an error
code and a cause, and that a BMP-classified input fails with terminal
cause "UnsupportedImageType".  The Fail state of `state_machine.py` lines
108-110 is constructed with neither an `error` nor a `cause` argument, so
the BMP run terminates with no error code and no cause. -/
theorem claim5_counterexample :
    stateOf .unsupportedImageType = .fail none none
    ∧ (run bmpOracle 10 .extractImageMetadata sampleDoc).2 =
        .failed none none
    ∧ (run bmpOracle 10 .extractImageMetadata sampleDoc).2 ≠
        .failed none (some "UnsupportedImageType") := by
  refine ⟨rfl, rfl, ?_⟩
  have h : (run bmpOracle 10 .extractImageMetadata sampleDoc).2 =
      .failed none none := rfl
  rw [h]
  simp

/-- C5 amended: the single Fail state is terminal; an input classified
with an unsupported format ("BMP") reaches FAILED immediately after the
Choice state, with zero retry attempts recorded — but the Fail state is
declared without an error code or a cause, so the terminal status carries
neither. -/
theorem claim5_unsupported_terminal :
    stateOf .unsupportedImageType = .fail none none
    ∧ visited (run bmpOracle 10 .extractImageMetadata sampleDoc).1 =
        [.extractImageMetadata, .checkImageType, .unsupportedImageType]
    ∧ retriesRecorded (run bmpOracle 10 .extractImageMetadata sampleDoc).1 = 0
    ∧ (run bmpOracle 10 .extractImageMetadata sampleDoc).2 =
        .failed none none :=
  ⟨rfl, by decide, rfl, rfl⟩

/-- C7: the trigger adapter's start operation is idempotent in the object
key: redelivering a notification for a key already processed returns the
same execution id and leaves the execution list and the metadata-store
write log untouched — one execution, one set of side effects. -/
theorem claim7_trigger_idempotent (st : TriggerState) (k : String) :
    onUploadNotification (onUploadNotification st k).1 k =
      onUploadNotification st k
    ∧ ((onUploadNotification (onUploadNotification st k).1 k).1).executions =
        ((onUploadNotification st k).1).executions
    ∧ ((onUploadNotification (onUploadNotification st k).1 k).1).metadataWrites =
        ((onUploadNotification st k).1).metadataWrites := by
  have key : onUploadNotification (onUploadNotification st k).1 k =
      onUploadNotification st k := by
    cases h : st.executions.lookup k with
    | some id =>
      simp only [onUploadNotification, h]
    | none =>
      simp only [onUploadNotification, h]
      simp [List.lookup]
  exact ⟨key, by rw [key], by rw [key]⟩

/-- The image-type Choice takes its single when-branch exactly when the
predicate holds, and the mandatory default otherwise. -/
theorem route_imageType (d : Json) :
    route imageTypeBranches .unsupportedImageType d =
      (if evalCond jpegOrPng d then StateName.transformMetadata
       else .unsupportedImageType) := by
  by_cases h : evalCond jpegOrPng d
  · rw [if_pos h]
    simp [route, imageTypeBranches, List.find?, h]
  · rw [if_neg h]
    simp only [Bool.not_eq_true] at h
    simp [route, imageTypeBranches, List.find?, h]

/-- The branch predicate holds exactly when `$.extractedMetadata.format`
is the string "JPEG" or the string "PNG". -/
theorem evalCond_jpegOrPng (d : Json) :
    evalCond jpegOrPng d = true ↔
      (getPath ["extractedMetadata", "format"] d = some (.str "JPEG")
       ∨ getPath ["extractedMetadata", "format"] d = some (.str "PNG")) := by
  show (evalCond (.stringEquals ["extractedMetadata", "format"] "JPEG") d
    || evalCond (.stringEquals ["extractedMetadata", "format"] "PNG") d)
      = true ↔ _
  cases hg : getPath ["extractedMetadata", "format"] d with
  | none => simp [evalCond, hg]
  | some j =>
    cases j <;> simp [evalCond, hg, Json.str.injEq]

/-- C2: the image-type Choice evaluates its predicate list in declaration
order and takes the first satisfied branch — the transform chain when
`$.extractedMetadata.format` equals "JPEG" or "PNG" — and the mandatory
default branch for every other document, so no no-match-without-default
situation can arise.  Concretely, the JPEG run passes through extract,
choice, transform, both parallel branches and store and reaches SUCCEEDED
with the merged output, while a "BMP" classification routes the very same
choice to the Fail state. -/
theorem claim2_choice_routing :
    (∀ d : Json, route imageTypeBranches .unsupportedImageType d =
      (if evalCond jpegOrPng d then StateName.transformMetadata
       else .unsupportedImageType))
    ∧ (∀ d : Json, evalCond jpegOrPng d = true ↔
        (getPath ["extractedMetadata", "format"] d = some (.str "JPEG")
         ∨ getPath ["extractedMetadata", "format"] d = some (.str "PNG")))
    ∧ visited (run okOracle 10 .extractImageMetadata sampleDoc).1 =
        [.extractImageMetadata, .checkImageType, .transformMetadata,
         .parallelProcessing, .detectLabels, .generateThumbnails,
         .storeMetadata]
    ∧ (run okOracle 10 .extractImageMetadata sampleDoc).2 =
        .succeeded sampleFinalDoc
    ∧ visited (run bmpOracle 10 .extractImageMetadata sampleDoc).1 =
        [.extractImageMetadata, .checkImageType, .unsupportedImageType] :=
  ⟨route_imageType, evalCond_jpegOrPng, by decide, rfl, by decide⟩

/-- Writing a field leaves the binding of every other key unchanged. -/
theorem lookup_setField_ne (fs : List (String × Json)) (k k' : String)
    (v : Json) (h : k' ≠ k) :
    (setField fs k v).lookup k' = fs.lookup k' := by
  have hb : (k' == k) = false := beq_eq_false_iff_ne.mpr h
  induction fs with
  | nil => simp [setField, List.lookup_cons, hb]
  | cons hd tl ih =>
    obtain ⟨k0, v0⟩ := hd
    by_cases hk : k0 = k
    · subst hk
      simp [setField, List.lookup_cons, hb]
    · simp only [setField, if_neg hk, List.lookup_cons]
      cases hk' : k' == k0 <;> simp [ih]

/-- Writing a field makes it hold the written value. -/
theorem lookup_setField_self (fs : List (String × Json)) (k : String)
    (v : Json) : (setField fs k v).lookup k = some v := by
  induction fs with
  | nil => simp [setField, List.lookup_cons]
  | cons hd tl ih =>
    obtain ⟨k0, v0⟩ := hd
    by_cases hk : k0 = k
    · subst hk
      simp [setField, List.lookup_cons]
    · have hb : (k == k0) = false :=
        beq_eq_false_iff_ne.mpr (fun h => hk h.symm)
      simp only [setField, if_neg hk, List.lookup_cons, hb]
      exact ih

/-- C6: input selection and result placement are independent per-task
settings: the extract task reads the whole document (`inputPath` `$`) and
writes only `$.extractedMetadata`, the store task reads the whole document
and writes only `$.storeResult`; selecting at `$` yields the entire
document; and merging a task result at a one-field result path installs
the result there while leaving every other field of the document
untouched. -/
theorem claim6_path_independence :
    extract_metadata_task.inputPath = []
    ∧ extract_metadata_task.resultPath = ["extractedMetadata"]
    ∧ store_metadata_task.inputPath = []
    ∧ store_metadata_task.resultPath = ["storeResult"]
    ∧ (∀ d : Json, getPath [] d = some d)
    ∧ (∀ (fs : List (String × Json)) (k : String) (v : Json),
        (setPath [k] (.obj fs) v).field? k = some v)
    ∧ (∀ (fs : List (String × Json)) (k k' : String) (v : Json), k' ≠ k →
        (setPath [k] (.obj fs) v).field? k' = (Json.obj fs).field? k') := by
  refine ⟨rfl, rfl, rfl, rfl, fun d => rfl, ?_, ?_⟩
  · intro fs k v
    show (Json.obj (setField fs k v)).field? k = some v
    exact lookup_setField_self fs k v
  · intro fs k k' v h
    show (Json.obj (setField fs k v)).field? k' = (Json.obj fs).field? k'
    exact lookup_setField_ne fs k k' v h

/-- Witness for C6: writing the extract result at `$.extractedMetadata`
leaves the `objectKey` field as it was. -/
theorem claim6_witness :
    "objectKey" ≠ "extractedMetadata"
    ∧ (setPath ["extractedMetadata"]
        (.obj [("objectKey", .str "photo.jpg")])
        (.obj [("format", .str "JPEG")])).field? "objectKey" =
      (Json.obj [("objectKey", .str "photo.jpg")]).field? "objectKey" :=
  ⟨by decide,
   claim6_path_independence.2.2.2.2.2.2
     [("objectKey", .str "photo.jpg")] "extractedMetadata" "objectKey"
     (.obj [("format", .str "JPEG")]) (by decide)⟩

/-- C3: the Parallel state joins fail-fast: whichever branch fails, the
Parallel state transitions to FAILED carrying that branch's error — the
sibling branch's outcome (here left completely unconstrained, or a
success) does not change the outcome — and a best-effort cancellation
signal to the sibling is recorded; when both branches succeed, their
outputs are collected in declaration order `[detect-labels result,
generate-thumbnails result]` and written at `$.parallelResults`, and the
chain continues into the store task. -/
theorem claim3_parallel_fail_fast :
    (∀ (o : Oracle) (e : String) (doc : Json) (fuel : Nat),
      o .detectLabels doc = .error e →
      (run o (fuel + 2) .parallelProcessing doc).2 =
        .failed (some e) none
      ∧ Event.cancelSignalled .generateThumbnails ∈
          (run o (fuel + 2) .parallelProcessing doc).1)
    ∧ (∀ (o : Oracle) (e : String) (doc rA : Json) (fuel : Nat),
      o .detectLabels doc = .ok rA →
      o .generateThumbnails doc = .error e →
      (run o (fuel + 2) .parallelProcessing doc).2 =
        .failed (some e) none
      ∧ Event.cancelSignalled .detectLabels ∈
          (run o (fuel + 2) .parallelProcessing doc).1)
    ∧ (∀ (o : Oracle) (fs : List (String × Json)) (rA rB rS : Json)
        (fuel : Nat),
      o .detectLabels (.obj fs) = .ok rA →
      o .generateThumbnails (.obj fs) = .ok rB →
      o .storeMetadata
        (.obj (setField fs "parallelResults" (.arr [rA, rB]))) = .ok rS →
      (run o (fuel + 2) .parallelProcessing (.obj fs)).2 =
        .succeeded (.obj (setField
          (setField fs "parallelResults" (.arr [rA, rB]))
          "storeResult" rS))) := by
  refine ⟨?_, ?_, ?_⟩
  · intro o e doc fuel h
    simp only [run, stateOf, taskStep, detect_labels_task, getPath, h,
      applyCatch, List.find?]
    constructor
    · trivial
    · simp [List.mem_cons, List.mem_append]
  · intro o e doc rA fuel hA hB
    simp only [run, stateOf, taskStep, detect_labels_task,
      generate_thumbnails_task, getPath, hA, hB, applyCatch, List.find?]
    constructor
    · trivial
    · simp [List.mem_cons, List.mem_append]
  · intro o fs rA rB rS fuel hA hB hS
    simp only [run, stateOf, taskStep, detect_labels_task,
      generate_thumbnails_task, store_metadata_task, getPath, setPath,
      hA, hB]
    simp only [setPath, Option.getD, hS]

/-- Witness for C3: a concrete detect-labels failure fails the Parallel
state and signals the sibling. -/
theorem claim3_witness :
    ((fun (_ : StateName) (_ : Json) =>
        (Except.error "RekognitionError" : Except String Json))
      .detectLabels sampleDoc = .error "RekognitionError")
    ∧ (run (fun _ _ => .error "RekognitionError") 10
        .parallelProcessing sampleDoc).2 =
        .failed (some "RekognitionError") none
    ∧ Event.cancelSignalled .generateThumbnails ∈
        (run (fun _ _ => .error "RekognitionError") 10
          .parallelProcessing sampleDoc).1 :=
  ⟨rfl,
   claim3_parallel_fail_fast.1 (fun _ _ => .error "RekognitionError")
     "RekognitionError" sampleDoc 8 rfl⟩

/-- C10: both parallel branch tasks are declared with no input path and no
result path, so each receives the entire forked execution document as its
task input, its raw result wholly replaces the branch document (the branch
output is the raw task result, not a merged document), and the sequence
written at `$.parallelResults` is exactly `[detect-labels result,
generate-thumbnails result]`. -/
theorem claim10_branch_defaults :
    detect_labels_task.inputPath = []
    ∧ detect_labels_task.resultPath = []
    ∧ generate_thumbnails_task.inputPath = []
    ∧ generate_thumbnails_task.resultPath = []
    ∧ (∀ (o : Oracle) (doc rA : Json) (fuel : Nat),
        o .detectLabels doc = .ok rA →
        run o (fuel + 1) .detectLabels doc =
          ([Event.entered .detectLabels,
            Event.taskSucceeded .detectLabels rA,
            Event.executionSucceeded rA], .succeeded rA))
    ∧ (∀ (o : Oracle) (doc rB : Json) (fuel : Nat),
        o .generateThumbnails doc = .ok rB →
        run o (fuel + 1) .generateThumbnails doc =
          ([Event.entered .generateThumbnails,
            Event.taskSucceeded .generateThumbnails rB,
            Event.executionSucceeded rB], .succeeded rB))
    ∧ (∀ (o : Oracle) (fs : List (String × Json)) (rA rB rS : Json)
        (fuel : Nat),
        o .detectLabels (.obj fs) = .ok rA →
        o .generateThumbnails (.obj fs) = .ok rB →
        o .storeMetadata
          (.obj (setField fs "parallelResults" (.arr [rA, rB]))) = .ok rS →
        ∃ out, (run o (fuel + 2) .parallelProcessing (.obj fs)).2 =
            .succeeded out
          ∧ out.field? "parallelResults" = some (.arr [rA, rB])) := by
  refine ⟨rfl, rfl, rfl, rfl, ?_, ?_, ?_⟩
  · intro o doc rA fuel h
    simp only [run, stateOf, taskStep, detect_labels_task, getPath, h,
      setPath]
    rfl
  · intro o doc rB fuel h
    simp only [run, stateOf, taskStep, generate_thumbnails_task, getPath,
      h, setPath]
    rfl
  · intro o fs rA rB rS fuel hA hB hS
    refine ⟨.obj (setField (setField fs "parallelResults" (.arr [rA, rB]))
      "storeResult" rS), ?_, ?_⟩
    · simp only [run, stateOf, taskStep, detect_labels_task,
        generate_thumbnails_task, store_metadata_task, getPath, setPath,
        hA, hB]
      simp only [setPath, Option.getD, hS]
    · show (Json.obj (setField (setField fs "parallelResults"
        (.arr [rA, rB])) "storeResult" rS)).field? "parallelResults" =
        some (.arr [rA, rB])
      have hne : "parallelResults" ≠ "storeResult" := by decide
      show (setField (setField fs "parallelResults" (.arr [rA, rB]))
        "storeResult" rS).lookup "parallelResults" = some (.arr [rA, rB])
      rw [lookup_setField_ne _ _ _ _ hne]
      exact lookup_setField_self _ _ _

/-- Witness for C10: the detect-labels branch with a concrete result. -/
theorem claim10_witness :
    (okOracle .detectLabels sampleDoc = .ok (.arr [.str "Dog"]))
    ∧ run okOracle 10 .detectLabels sampleDoc =
        ([Event.entered .detectLabels,
          Event.taskSucceeded .detectLabels (.arr [.str "Dog"]),
          Event.executionSucceeded (.arr [.str "Dog"])],
         .succeeded (.arr [.str "Dog"])) :=
  ⟨rfl, claim10_branch_defaults.2.2.2.2.1 okOracle sampleDoc
    (.arr [.str "Dog"]) 9 rfl⟩

/-- A terminal status overrides the replay state; RUNNING keeps it. -/
def resolveStatus (st : ExecStatus) : ExecStatus → ExecStatus
  | .running => st
  | .succeeded out => .succeeded out
  | .failed e c => .failed e c

/-- Non-terminal events leave the replay state unchanged. -/
theorem stepEvent_nonterminal (st : ExecStatus) (e : Event)
    (h : isTerminalEvent e = false) : stepEvent st e = st := by
  cases e <;> simp_all [stepEvent, isTerminalEvent]

/-- Replay splits over history concatenation. -/
theorem replayFrom_append (st : ExecStatus) (l1 l2 : List Event) :
    replayFrom st (l1 ++ l2) = replayFrom (replayFrom st l1) l2 := by
  unfold replayFrom
  rw [List.foldl_append]

/-- Replaying a history of non-terminal events is the identity. -/
theorem replayFrom_nonterminal (st : ExecStatus) (evs : List Event)
    (h : ∀ e ∈ evs, isTerminalEvent e = false) : replayFrom st evs = st := by
  induction evs generalizing st with
  | nil => rfl
  | cons e tl ih =>
    show replayFrom (stepEvent st e) tl = st
    rw [stepEvent_nonterminal st e (h e (List.mem_cons_self e tl))]
    exact ih st (fun x hx => h x (List.mem_cons_of_mem e hx))

/-- Dropping the terminal markers of a sub-history makes it replay-inert. -/
theorem replayFrom_filter (st : ExecStatus) (evs : List Event) :
    replayFrom st (evs.filter (fun e => !isTerminalEvent e)) = st := by
  refine replayFrom_nonterminal st _ (fun e he => ?_)
  have := List.mem_filter.mp he
  simpa using this.2

/-- A non-terminal prefix followed by a tail replays as the tail alone. -/
theorem replayFrom_skip (st : ExecStatus) (evs tail : List Event)
    (hnt : ∀ e ∈ evs, isTerminalEvent e = false) :
    replayFrom st (evs ++ tail) = replayFrom st tail := by
  rw [replayFrom_append, replayFrom_nonterminal st evs hnt]


/-- Task activations only record non-terminal events. -/
theorem taskStep_nonterminal (o : Oracle) (s : StateName) (t : TaskState)
    (doc : Json) :
    ∀ e ∈ (taskStep o s t doc).1, isTerminalEvent e = false := by
  intro e he
  unfold taskStep at he
  split at he
  · simp at he
    subst he
    rfl
  · split at he
    · simp at he
      subst he
      rfl
    · simp [List.mem_map] at he
      rcases he with h1 | ⟨d, _, h2⟩
      · subst h1; rfl
      · subst h2; rfl

/-- A history opening with a state entry and non-terminal events replays
as its tail alone. -/
theorem replayFrom_entered_skip (st : ExecStatus) (sN : StateName)
    (evs tail : List Event)
    (hnt : ∀ e ∈ evs, isTerminalEvent e = false) :
    replayFrom st (Event.entered sN :: evs ++ tail) = replayFrom st tail := by
  rw [show Event.entered sN :: evs ++ tail =
    (Event.entered sN :: evs) ++ tail from rfl]
  refine replayFrom_skip st _ _ ?_
  intro e he
  rcases List.mem_cons.mp he with h1 | h2
  · subst h1; rfl
  · exact hnt e h2

/-- Task-state case of the replay soundness induction. -/
theorem replayFrom_run_task (o : Oracle) (fuel : Nat) (sN : StateName)
    (t : TaskState) (doc : Json) (st : ExecStatus)
    (hs : stateOf sN = .task t)
    (ih : ∀ (s : StateName) (d : Json) (st' : ExecStatus),
      replayFrom st' (run o fuel s d).1 =
        resolveStatus st' (run o fuel s d).2) :
    replayFrom st (run o (fuel + 1) sN doc).1 =
      resolveStatus st (run o (fuel + 1) sN doc).2 := by
  simp only [run, hs]
  split
  · rename_i evs doc' heq
    have hnt : ∀ x ∈ evs, isTerminalEvent x = false := fun x hx =>
      taskStep_nonterminal o sN t doc x (by rw [heq]; exact hx)
    split
    · exact replayFrom_entered_skip st sN evs _ hnt
    · rename_i n hnext
      exact (replayFrom_entered_skip st sN evs _ hnt).trans (ih n doc' st)
  · rename_i evs e heq
    have hnt : ∀ x ∈ evs, isTerminalEvent x = false := fun x hx =>
      taskStep_nonterminal o sN t doc x (by rw [heq]; exact hx)
    split
    · rename_i h hc
      exact (replayFrom_entered_skip st sN evs _ hnt).trans (ih h doc st)
    · exact replayFrom_entered_skip st sN evs _ hnt

/-- Branch sub-histories, stripped of terminal markers, are replay-inert. -/
theorem branch_events_nonterminal (l1 l2 : List Event) :
    ∀ e ∈ (l1.filter (fun e => !isTerminalEvent e) ++
      l2.filter (fun e => !isTerminalEvent e)), isTerminalEvent e = false := by
  intro e he
  rcases List.mem_append.mp he with h | h <;>
    · have := List.mem_filter.mp h
      simpa using this.2

/-- Replaying an entry event followed by stripped branch histories leaves
the replay state unchanged. -/
theorem replayFrom_entered_branches (st : ExecStatus) (sN : StateName)
    (l1 l2 : List Event) :
    replayFrom st (Event.entered sN ::
      (l1.filter (fun e => !isTerminalEvent e) ++
       l2.filter (fun e => !isTerminalEvent e))) = st :=
  replayFrom_nonterminal st _ (by
    intro e he
    rcases List.mem_cons.mp he with h1 | h2
    · subst h1; rfl
    · exact branch_events_nonterminal l1 l2 e h2)

/-- Modelled from the spec: replay soundness (spec §4.5): for every
oracle, fuel, state and document, replaying the recorded history from any
starting status yields exactly the engine's status (terminal statuses
override, RUNNING keeps the starting status). -/
theorem replayFrom_run (o : Oracle) :
    ∀ (fuel : Nat) (s : StateName) (doc : Json) (st : ExecStatus),
      replayFrom st (run o fuel s doc).1 =
        resolveStatus st (run o fuel s doc).2 := by
  intro fuel
  induction fuel with
  | zero => intro s doc st; rfl
  | succ fuel ih =>
    intro s doc st
    cases s with
    | extractImageMetadata =>
      exact replayFrom_run_task o fuel _ extract_metadata_task doc st rfl
        (fun s d st' => ih s d st')
    | transformMetadata =>
      exact replayFrom_run_task o fuel _ transform_metadata_task doc st rfl
        (fun s d st' => ih s d st')
    | detectLabels =>
      exact replayFrom_run_task o fuel _ detect_labels_task doc st rfl
        (fun s d st' => ih s d st')
    | generateThumbnails =>
      exact replayFrom_run_task o fuel _ generate_thumbnails_task doc st rfl
        (fun s d st' => ih s d st')
    | storeMetadata =>
      exact replayFrom_run_task o fuel _ store_metadata_task doc st rfl
        (fun s d st' => ih s d st')
    | unsupportedImageType => rfl
    | checkImageType =>
      simp only [run, stateOf]
      exact ih (route imageTypeBranches .unsupportedImageType doc) doc st
    | parallelProcessing =>
      simp only [run, stateOf]
      cases h1 : (run o fuel StateName.detectLabels doc).2 with
      | failed e c =>
        exact (replayFrom_entered_skip st _ _ _
          (branch_events_nonterminal _ _)).trans rfl
      | succeeded out1 =>
        cases h2 : (run o fuel StateName.generateThumbnails doc).2 with
        | failed e c =>
          exact (replayFrom_entered_skip st _ _ _
            (branch_events_nonterminal _ _)).trans rfl
        | succeeded out2 =>
          exact (replayFrom_entered_skip st _ _ _
            (branch_events_nonterminal _ _)).trans
            (ih .storeMetadata _ st)
        | running =>
          exact replayFrom_entered_branches st _ _ _
      | running =>
        cases h2 : (run o fuel StateName.generateThumbnails doc).2 with
        | failed e c =>
          exact (replayFrom_entered_skip st _ _ _
            (branch_events_nonterminal _ _)).trans rfl
        | succeeded out2 =>
          exact replayFrom_entered_branches st _ _ _
        | running =>
          exact replayFrom_entered_branches st _ _ _

/-- C8: the status and current output of an execution are a deterministic
function of its recorded event history alone: the pure `replay` of the
history from scratch reproduces the engine's status (with its output or
terminal error) for every oracle, every fuel bound and every input
document — no state outside the history is needed, and replaying the same
history any number of times gives the same answer. -/
theorem claim8_status_replay_determined (o : Oracle) (fuel : Nat)
    (doc : Json) :
    replay (run o fuel .extractImageMetadata doc).1 =
      (run o fuel .extractImageMetadata doc).2 := by
  have h := replayFrom_run o fuel .extractImageMetadata doc .running
  unfold replay
  rw [h]
  cases (run o fuel .extractImageMetadata doc).2 <;> rfl

/-- Witness for C8 on a concrete successful run. -/
theorem claim8_witness :
    replay (run okOracle 10 .extractImageMetadata sampleDoc).1 =
      (run okOracle 10 .extractImageMetadata sampleDoc).2 :=
  claim8_status_replay_determined okOracle 10 sampleDoc

/-- Unfolding `run` at a task state whose activation succeeds and which
has a successor. -/
theorem run_task_ok_next (o : Oracle) (fuel : Nat) (sN : StateName)
    (t : TaskState) (doc : Json) (evs : List Event) (doc' : Json)
    (n : StateName) (hs : stateOf sN = .task t)
    (ht : taskStep o sN t doc = (evs, .ok doc')) (hn : t.next = some n) :
    run o (fuel + 1) sN doc =
      (Event.entered sN :: evs ++ (run o fuel n doc').1,
       (run o fuel n doc').2) := by
  simp only [run, hs, ht, hn]

/-- Unfolding `run` at a terminal task state whose activation succeeds. -/
theorem run_task_ok_end (o : Oracle) (fuel : Nat) (sN : StateName)
    (t : TaskState) (doc : Json) (evs : List Event) (doc' : Json)
    (hs : stateOf sN = .task t)
    (ht : taskStep o sN t doc = (evs, .ok doc')) (hn : t.next = none) :
    run o (fuel + 1) sN doc =
      (Event.entered sN :: evs ++ [Event.executionSucceeded doc'],
       .succeeded doc') := by
  simp only [run, hs, ht, hn]

/-- Unfolding `run` at a task state whose activation fails with a caught
error. -/
theorem run_task_error_catch (o : Oracle) (fuel : Nat) (sN : StateName)
    (t : TaskState) (doc : Json) (evs : List Event) (e : String)
    (hstate : StateName) (hs : stateOf sN = .task t)
    (ht : taskStep o sN t doc = (evs, .error e))
    (hc : applyCatch e t.catchers = some hstate) :
    run o (fuel + 1) sN doc =
      (Event.entered sN :: evs ++ (run o fuel hstate doc).1,
       (run o fuel hstate doc).2) := by
  simp only [run, hs, ht, hc]

/-- Unfolding `run` at a task state whose activation fails uncaught. -/
theorem run_task_error_nocatch (o : Oracle) (fuel : Nat) (sN : StateName)
    (t : TaskState) (doc : Json) (evs : List Event) (e : String)
    (hs : stateOf sN = .task t)
    (ht : taskStep o sN t doc = (evs, .error e))
    (hc : applyCatch e t.catchers = none) :
    run o (fuel + 1) sN doc =
      (Event.entered sN :: evs ++ [Event.executionFailed (some e) none],
       .failed (some e) none) := by
  simp only [run, hs, ht, hc]

/-- The extract task's only catch handler is the Fail state. -/
theorem applyCatch_extract (e : String) (h : StateName)
    (hc : applyCatch e extract_metadata_task.catchers = some h) :
    h = .unsupportedImageType := by
  unfold applyCatch at hc
  split at hc
  · rename_i c hfind
    have hmem := List.mem_of_find?_eq_some hfind
    simp [extract_metadata_task] at hmem
    subst hmem
    exact (Option.some.inj hc).symm
  · exact absurd hc (by simp)

/-- The image-type choice routes only to the transform chain or to the
Fail state, never into a parallel branch. -/
theorem route_imageType_ne_branches (d : Json) :
    route imageTypeBranches .unsupportedImageType d ≠ .detectLabels
    ∧ route imageTypeBranches .unsupportedImageType d ≠
        .generateThumbnails := by
  rw [route_imageType d]
  by_cases hc : evalCond jpegOrPng d <;> simp [hc]

/-- Outside the two parallel branches, an execution only reaches
SUCCEEDED by entering (and completing) the store-metadata task. -/
theorem succeeded_visits_store (o : Oracle) :
    ∀ (fuel : Nat) (s : StateName) (doc : Json),
      s ≠ .detectLabels → s ≠ .generateThumbnails →
      ∀ out : Json, (run o fuel s doc).2 = .succeeded out →
        Event.entered .storeMetadata ∈ (run o fuel s doc).1 := by
  intro fuel
  induction fuel with
  | zero =>
    intro s doc _ _ out h
    simp [run] at h
  | succ fuel ih =>
    intro s doc hne1 hne2 out h
    cases s with
    | detectLabels => exact absurd rfl hne1
    | generateThumbnails => exact absurd rfl hne2
    | unsupportedImageType => simp [run, stateOf] at h
    | extractImageMetadata =>
      rcases htask : taskStep o .extractImageMetadata
        extract_metadata_task doc with ⟨evs, res⟩
      cases res with
      | ok doc' =>
        rw [run_task_ok_next o fuel .extractImageMetadata
          extract_metadata_task doc evs doc' .checkImageType rfl
          htask rfl] at h ⊢
        have hm := ih .checkImageType doc' (by simp) (by simp) out h
        exact List.mem_cons_of_mem _ (List.mem_append.mpr (Or.inr hm))
      | error e =>
        cases hcatch : applyCatch e extract_metadata_task.catchers with
        | some hstate =>
          have hst := applyCatch_extract e hstate hcatch
          subst hst
          rw [run_task_error_catch o fuel .extractImageMetadata
            extract_metadata_task doc evs e _ rfl htask hcatch] at h ⊢
          have hm := ih .unsupportedImageType doc (by simp) (by simp) out h
          exact List.mem_cons_of_mem _ (List.mem_append.mpr (Or.inr hm))
        | none =>
          rw [run_task_error_nocatch o fuel .extractImageMetadata
            extract_metadata_task doc evs e rfl htask hcatch] at h
          simp at h
    | transformMetadata =>
      rcases htask : taskStep o .transformMetadata
        transform_metadata_task doc with ⟨evs, res⟩
      cases res with
      | ok doc' =>
        rw [run_task_ok_next o fuel .transformMetadata
          transform_metadata_task doc evs doc' .parallelProcessing
          rfl htask rfl] at h ⊢
        have hm := ih .parallelProcessing doc' (by simp) (by simp) out h
        exact List.mem_cons_of_mem _ (List.mem_append.mpr (Or.inr hm))
      | error e =>
        rw [run_task_error_nocatch o fuel .transformMetadata
          transform_metadata_task doc evs e rfl htask rfl] at h
        simp at h
    | storeMetadata =>
      rcases htask : taskStep o .storeMetadata
        store_metadata_task doc with ⟨evs, res⟩
      cases res with
      | ok doc' =>
        rw [run_task_ok_end o fuel .storeMetadata store_metadata_task
          doc evs doc' rfl htask rfl]
        exact List.mem_cons_self _ _
      | error e =>
        rw [run_task_error_nocatch o fuel .storeMetadata
          store_metadata_task doc evs e rfl htask rfl]
        exact List.mem_cons_self _ _
    | checkImageType =>
      have hrw : run o (fuel + 1) .checkImageType doc =
          (Event.entered .checkImageType ::
            (run o fuel (route imageTypeBranches .unsupportedImageType doc)
              doc).1,
           (run o fuel (route imageTypeBranches .unsupportedImageType doc)
              doc).2) := rfl
      rw [hrw] at h ⊢
      have hm := ih (route imageTypeBranches .unsupportedImageType doc) doc
        (route_imageType_ne_branches doc).1
        (route_imageType_ne_branches doc).2 out h
      exact List.mem_cons_of_mem _ hm
    | parallelProcessing =>
      simp only [run, stateOf] at h ⊢
      cases h1 : (run o fuel StateName.detectLabels doc).2 with
      | failed e c => rw [h1] at h; simp at h
      | running =>
        rw [h1] at h
        cases h2 : (run o fuel StateName.generateThumbnails doc).2 with
        | failed e c => rw [h2] at h; simp at h
        | running => rw [h2] at h; simp at h
        | succeeded out2 => rw [h2] at h; simp at h
      | succeeded out1 =>
        rw [h1] at h
        cases h2 : (run o fuel StateName.generateThumbnails doc).2 with
        | failed e c => rw [h2] at h; simp at h
        | running => rw [h2] at h; simp at h
        | succeeded out2 =>
          rw [h2] at h
          have hm := ih .storeMetadata
            (setPath ["parallelResults"] doc (.arr [out1, out2]))
            (by simp) (by simp) out h
          simp [List.mem_cons, List.mem_append]
          tauto

/-- C9: the workflow declares no Succeed state and exactly one Fail state;
both failure routes — the extract task's `ImageIdentifyError` catch rule
and the Choice state's default branch — target that single Fail state; and
an execution reaches SUCCEEDED only by entering (and completing) the
store-metadata task, the final state of the supported-format chain. -/
theorem claim9_single_fail_no_succeed :
    (∀ s : StateName, stateOf s ≠ StepState.succeed)
    ∧ allStates.filter (fun s => isFailState (stateOf s)) =
        [StateName.unsupportedImageType]
    ∧ extract_metadata_task.catchers =
        [⟨["ImageIdentifyError"], .unsupportedImageType⟩]
    ∧ stateOf .checkImageType =
        .choice imageTypeBranches .unsupportedImageType
    ∧ (∀ (o : Oracle) (fuel : Nat) (doc out : Json),
        (run o fuel .extractImageMetadata doc).2 = .succeeded out →
        Event.entered .storeMetadata ∈
          (run o fuel .extractImageMetadata doc).1) := by
  refine ⟨?_, rfl, rfl, rfl, ?_⟩
  · intro s
    cases s <;> simp [stateOf]
  · intro o fuel doc out h
    exact succeeded_visits_store o fuel .extractImageMetadata doc
      (by simp) (by simp) out h

/-- Witness for C9 on the concrete successful JPEG run. -/
theorem claim9_witness :
    (run okOracle 10 .extractImageMetadata sampleDoc).2 =
      .succeeded sampleFinalDoc
    ∧ Event.entered .storeMetadata ∈
        (run okOracle 10 .extractImageMetadata sampleDoc).1 :=
  ⟨rfl, claim9_single_fail_no_succeed.2.2.2.2 okOracle 10 sampleDoc
    sampleFinalDoc rfl⟩

/-- Witness for C2 at a concrete document. -/
theorem claim2_witness :
    route imageTypeBranches .unsupportedImageType sampleFinalDoc =
      (if evalCond jpegOrPng sampleFinalDoc then StateName.transformMetadata
       else .unsupportedImageType) :=
  claim2_choice_routing.1 sampleFinalDoc

/-- Witness for C7 from the empty trigger state. -/
theorem claim7_witness :
    onUploadNotification
      (onUploadNotification ⟨[], [], 0⟩ "photo.jpg").1 "photo.jpg" =
      onUploadNotification ⟨[], [], 0⟩ "photo.jpg" :=
  (claim7_trigger_idempotent ⟨[], [], 0⟩ "photo.jpg").1
